import Mathlib

/-!
# Formal model of the client-side sign-up / sign-in form logic

This development embeds the form logic of the fight-prediction site's
client: the sign-up page (`src/client/src/app/signup/page.tsx`: field
validation, password-strength scoring, input-change and submit handlers)
and the sign-in form's submit guard
(`src/client/src/components/mainpage/header.tsx`).

Modelling conventions:
* JavaScript strings are `List Char`.
* React `useState` component state is made explicit: each event handler
  is a function from the component state to the next state.  Inside one
  event handler, every read of a state variable sees the render-scope
  (pre-event) value, and when `setX` is called several times with plain
  values during one handler, the last written value is the one held by
  the state afterwards.
* A JavaScript error object whose keys are deleted/inserted becomes a
  record of `Option` fields: `some msg` when the key is present.
-/

/-- Character class `[a-z]` used by the source regexes. -/
def isLowerC (c : Char) : Bool := decide ('a' ≤ c ∧ c ≤ 'z')

/-- Character class `[A-Z]` used by the source regexes. -/
def isUpperC (c : Char) : Bool := decide ('A' ≤ c ∧ c ≤ 'Z')

/-- Character class `\d` used by the source regexes. -/
def isDigitC (c : Char) : Bool := decide ('0' ≤ c ∧ c ≤ '9')

/-- Character class `[^a-zA-Z\d]` of `getPasswordStrength`: a character
that is neither a letter nor a digit. -/
def isSymbolC (c : Char) : Bool := !(isLowerC c || isUpperC c || isDigitC c)

/-- JavaScript regex class `\s` (whitespace), restricted to the
characters that can matter here: ASCII whitespace, NBSP and BOM. -/
def isJsSpace (c : Char) : Bool :=
  c == ' ' || c == '\t' || c == '\n' || c == '\x0B' || c == '\x0C' ||
  c == '\r' || c == '\u00A0' || c == '\uFEFF'

/-- Character class `[^\s@]` of the email regex. -/
def isEmailChar (c : Char) : Bool := !isJsSpace c && c != '@'

/-- `String.prototype.trim`: strip leading and trailing whitespace. -/
def trimList (l : List Char) : List Char :=
  ((l.dropWhile isJsSpace).reverse.dropWhile isJsSpace).reverse

/-- Split a list at the first occurrence of `a`: returns the part before
the first `a` and the part after it, or `none` when `a` does not occur. -/
def splitAtFirst (a : Char) : List Char → Option (List Char × List Char)
  | [] => none
  | c :: cs =>
    if c == a then some ([], cs)
    else
      match splitAtFirst a cs with
      | none => none
      | some (l, r) => some (c :: l, r)

/-- Is there a decomposition `l = m ++ dot :: t` with `t` nonempty?
(That is: does a dot occur in `l` other than at the last position?) -/
def hasDotTail : List Char → Bool
  | [] => false
  | [_] => false
  | c :: cs => c == '.' || hasDotTail cs

/-- Is there a decomposition `l = m ++ dot :: t` with both `m` and `t`
nonempty?  (A dot strictly inside `l`.) -/
def hasInteriorDot : List Char → Bool
  | [] => false
  | _ :: cs => hasDotTail cs

/-- The anchored email regex `^[^\s@]+@[^\s@]+\.[^\s@]+$` of the source.
The regex matches iff the string splits as `l ++ @ :: r` at its first `@`
with `l` nonempty, every character of `l` and `r` in `[^\s@]`, and a dot
strictly inside `r` (so that `r = m ++ dot :: t` with `m`, `t` nonempty). -/
def emailRegexTest (s : List Char) : Bool :=
  match splitAtFirst '@' s with
  | none => false
  | some (l, r) => !l.isEmpty && l.all isEmailChar && r.all isEmailChar && hasInteriorDot r

/-- The shape the spec describes for a valid email: `local@domain.tld`
where local and domain(+tld) exclude whitespace and `@`, and a literal
dot separates domain from tld. -/
def EmailShape (s : List Char) : Prop :=
  ∃ l m t : List Char,
    s = l ++ '@' :: (m ++ '.' :: t) ∧
    l ≠ [] ∧ m ≠ [] ∧ t ≠ [] ∧
    (∀ c ∈ l, isEmailChar c = true) ∧
    (∀ c ∈ m, isEmailChar c = true) ∧
    (∀ c ∈ t, isEmailChar c = true)

/-- Error message of the username rule. -/
def msgUsername : List Char := "Username must be at least 4 characters".toList

/-- Error message of the email rule. -/
def msgEmail : List Char := "Please enter a valid email address".toList

/-- Error message of the password length rule. -/
def msgPwLen : List Char := "Password must be at least 8 characters".toList

/-- Error message of the password character-class rule. -/
def msgPwClass : List Char := "Password must contain uppercase, lowercase, and number".toList

/-- Error message of the confirm-password rule. -/
def msgConfirm : List Char := "Passwords do not match".toList

/-- `validateField`, `username` case: `if (!value || value.length < 4)`. -/
def usernameRule (value : List Char) : Option (List Char) :=
  if value = [] ∨ value.length < 4 then some msgUsername else none

/-- `validateField`, `email` case: `if (!value || !emailRegex.test(value))`. -/
def emailRule (value : List Char) : Option (List Char) :=
  if value = [] ∨ emailRegexTest value = false then some msgEmail else none

/-- `validateField`, `password` case: length check, then the lookahead
conjunction `(?=.*[a-z])(?=.*[A-Z])(?=.*\d)`. -/
def passwordRule (value : List Char) : Option (List Char) :=
  if value = [] ∨ value.length < 8 then some msgPwLen
  else if ¬(value.any isLowerC ∧ value.any isUpperC ∧ value.any isDigitC) then
    some msgPwClass
  else none

/-- `validateField`, `confirmPassword` case: `if (value !== formData.password)`,
where `formData.password` is the render-scope password value. -/
def confirmRule (value pw : List Char) : Option (List Char) :=
  if value ≠ pw then some msgConfirm else none

/-- The four form fields (`Object.keys(formData)` order). -/
inductive FieldName where
  | username
  | email
  | password
  | confirmPassword
  deriving DecidableEq

/-- `FormData`: current string value of each field. -/
structure FormData where
  username : List Char
  email : List Char
  password : List Char
  confirmPassword : List Char
  deriving DecidableEq

/-- `FormErrors`: per-field optional error message; `some msg` models the
key being present in the JavaScript errors object. -/
structure FormErrors where
  username : Option (List Char)
  email : Option (List Char)
  password : Option (List Char)
  confirmPassword : Option (List Char)
  deriving DecidableEq

/-- The empty errors object `{}`. -/
def emptyErrors : FormErrors :=
  { username := none, email := none, password := none, confirmPassword := none }

/-- `Object.keys(errors).length === 0`. -/
def errorsEmpty (e : FormErrors) : Bool :=
  e.username.isNone && e.email.isNone && e.password.isNone && e.confirmPassword.isNone

/-- Update one field of `formData` (the computed-property spread
`{ ...prev, [name]: fieldValue }`). -/
def setField (fd : FormData) (name : FieldName) (v : List Char) : FormData :=
  match name with
  | .username => { fd with username := v }
  | .email => { fd with email := v }
  | .password => { fd with password := v }
  | .confirmPassword => { fd with confirmPassword := v }

/-- `validateField(name, value)`: builds `newErrors = { ...errors }` from
the render-scope `errors`, inserts or deletes exactly the key for the
field being validated, and passes the result to `setErrors`.  The
`confirmPassword` case reads the render-scope `formData.password`. -/
def validateField (name : FieldName) (value : List Char)
    (formData : FormData) (errors : FormErrors) : FormErrors :=
  match name with
  | .username => { errors with username := usernameRule value }
  | .email => { errors with email := emailRule value }
  | .password => { errors with password := passwordRule value }
  | .confirmPassword => { errors with confirmPassword := confirmRule value formData.password }

/-- State owned by the sign-up component: `formData`, `errors`,
`isLoading`. -/
structure SignupState where
  formData : FormData
  errors : FormErrors
  isLoading : Bool
  deriving DecidableEq

/-- State at form mount: empty fields, empty errors, not loading. -/
def initialState : SignupState :=
  { formData := { username := [], email := [], password := [], confirmPassword := [] },
    errors := emptyErrors,
    isLoading := false }

/-- `handleInputChange`: `setFormData` applies its functional updater to
the current form data; `validateField` closes over the render-scope
`formData` and `errors` (the values from before this event). -/
def handleInputChange (name : FieldName) (value : List Char) (s : SignupState) : SignupState :=
  { s with
    formData := setField s.formData name value,
    errors := validateField name value s.formData s.errors }

/-- `handleSubmit`.  The `forEach` over `Object.keys(formData)` calls
`validateField` once per field; every call builds its `newErrors` from
the same render-scope `errors` and replaces the state with it, so the
last call (`confirmPassword`) determines the errors state afterwards.
The guard `Object.keys(errors).length === 0` also reads the render-scope
`errors` — the pre-submit snapshot, not the freshly computed one.  When
the guard passes, `setIsLoading(true)`, the placeholder delay, then
`setIsLoading(false)` run; the returned `Bool` records whether this
submission path (the simulated network call) was entered. -/
def handleSubmit (s : SignupState) : SignupState × Bool :=
  let _e1 := validateField .username s.formData.username s.formData s.errors
  let _e2 := validateField .email s.formData.email s.formData s.errors
  let _e3 := validateField .password s.formData.password s.formData s.errors
  let e4 := validateField .confirmPassword s.formData.confirmPassword s.formData s.errors
  if errorsEmpty s.errors then
    ({ s with errors := e4, isLoading := false }, true)
  else
    ({ s with errors := e4 }, false)

/-- A fresh `FieldErrors` snapshot: every field of `fd` validated against
the current values of `fd` (what the spec's submit-time re-validation is
supposed to produce). -/
def validateAllFresh (fd : FormData) : FormErrors :=
  validateField .confirmPassword fd.confirmPassword fd
    (validateField .password fd.password fd
      (validateField .email fd.email fd
        (validateField .username fd.username fd emptyErrors)))

/-- `getPasswordStrength`: one point per satisfied criterion. -/
def getPasswordStrength (password : List Char) : Nat :=
  let s0 : Nat := 0
  let s1 := if 8 ≤ password.length then s0 + 1 else s0
  let s2 := if password.any isLowerC then s1 + 1 else s1
  let s3 := if password.any isUpperC then s2 + 1 else s2
  let s4 := if password.any isDigitC then s3 + 1 else s3
  if password.any isSymbolC then s4 + 1 else s4

/-- The five independent strength criteria of the spec, as a list of
Booleans: length ≥ 8, contains a lowercase letter, an uppercase letter,
a digit, a non-alphanumeric character. -/
def criteria (p : List Char) : List Bool :=
  [decide (8 ≤ p.length),
   decide (∃ c ∈ p, isLowerC c = true),
   decide (∃ c ∈ p, isUpperC c = true),
   decide (∃ c ∈ p, isDigitC c = true),
   decide (∃ c ∈ p, isSymbolC c = true)]

/-- The submission lifecycle states of the spec (§4.3). -/
inductive SubmissionState where
  | idle
  | submitting
  | succeeded
  | failed (reason : List Char)
  deriving DecidableEq

/-- Outcome reported by the external authentication collaborator (§6). -/
inductive CollabResult where
  | success
  | failure (reason : List Char)
  deriving DecidableEq

/-- Modelled from the spec: the submission controller of §4.3 together
with the §6 authentication collaborator call, which are absent from the
source (the submit handler contains only a placeholder delay and a TODO).
On submit, every field is re-validated, producing a fresh FieldErrors
snapshot; if the snapshot is empty the controller transitions
`idle → submitting`, invokes the collaborator exactly once, and ends in
`succeeded` on success or in `failed reason` on failure (the reason
retained for display, no automatic retry); otherwise it stays in `idle`
and makes no collaborator call.  Returns the sequence of states visited
and the number of collaborator invocations. -/
def specSubmit (fd : FormData) (collab : CollabResult) : List SubmissionState × Nat :=
  if errorsEmpty (validateAllFresh fd) then
    match collab with
    | .success => ([.idle, .submitting, .succeeded], 1)
    | .failure r => ([.idle, .submitting, .failed r], 1)
  else
    ([.idle], 0)

/-- State owned by the sign-in form: `formData` fields and `isLoading`. -/
structure SigninState where
  email : List Char
  password : List Char
  isLoading : Bool
  deriving DecidableEq

/-- The sign-in `handleSubmit`: returns immediately when the trimmed
email or trimmed password is empty; otherwise `setIsLoading(true)`, the
`axios.post` request, and `finally setIsLoading(false)` run.  Returns
(next state, whether the network request was issued, whether `isLoading`
was ever set). -/
def signinHandleSubmit (s : SigninState) : SigninState × Bool × Bool :=
  if trimList s.email = [] ∨ trimList s.password = [] then
    (s, false, false)
  else
    ({ s with isLoading := false }, true, true)


/-! ## Helper lemmas -/

theorem strength_eq_count (p : List Char) :
    getPasswordStrength p = (criteria p).count true := by
  unfold getPasswordStrength criteria
  by_cases h1 : 8 ≤ p.length <;>
    by_cases h2 : ∃ c ∈ p, isLowerC c = true <;>
      by_cases h3 : ∃ c ∈ p, isUpperC c = true <;>
        by_cases h4 : ∃ c ∈ p, isDigitC c = true <;>
          by_cases h5 : ∃ c ∈ p, isSymbolC c = true <;>
            simp [h1, h2, h3, h4, h5, List.any_eq_true, List.count_cons]

theorem criteria_length (p : List Char) : (criteria p).length = 5 := rfl

/-! ## Claims about the field validators and the strength scorer -/

/-- Claim C4 (counterexample): the validator does not trim.  For the
username `"ab  "` (length 4, trimmed length 2) the trimmed value is
shorter than 4 characters, yet validation yields no error — refuting
"the error is yielded exactly when the trimmed value's length is less
than 4". -/
theorem c4_trimmed_counterexample :
    usernameRule ("ab  ".toList) = none ∧ (trimList ("ab  ".toList)).length < 4 := by
  decide

/-- Claim C4 (amended): validating the username yields the error
"Username must be at least 4 characters" exactly when the raw
(untrimmed) value's length is less than 4, and no error otherwise. -/
theorem c4_username_rule (v : List Char) :
    usernameRule v = some msgUsername ↔ v.length < 4 := by
  unfold usernameRule
  split_ifs with h
  · simp only [Option.some.injEq, true_iff, iff_true]
    rcases h with h | h
    · simp [h]
    · exact h
  · push_neg at h
    simp only [reduceCtorEq, false_iff, not_lt]
    omega

/-- Claim C5 (counterexample): the spec's example values are wrong:
`score("abcdefgh")` is not 1 (it is 2: length and lowercase both count),
and `score("Abcdefg1")` is not 3 (it is 4). -/
theorem c5_examples_counterexample :
    ¬(getPasswordStrength ("abcdefgh".toList) = 1 ∧
      getPasswordStrength ("Abcdefg1".toList) = 3 ∧
      getPasswordStrength ("Abcdef1!".toList) = 5) := by
  decide

/-- Claim C5 (amended): the password strength scorer satisfies
`score("abcdefgh") = 2`, `score("Abcdefg1") = 4`, `score("Abcdef1!") = 5`. -/
theorem c5_strength_examples :
    getPasswordStrength ("abcdefgh".toList) = 2 ∧
    getPasswordStrength ("Abcdefg1".toList) = 4 ∧
    getPasswordStrength ("Abcdef1!".toList) = 5 := by
  decide

/-- Claim C6: for every password, `getPasswordStrength` is a pure
function whose value lies in [0,5] and equals the exact count of the
five independently satisfied criteria (length ≥ 8, contains a lowercase
letter, an uppercase letter, a digit, a non-alphanumeric character);
in particular `"AAAAAAAA"` scores 2 and `"aA1!aaaa"` scores 5. -/
theorem c6_strength_counts_criteria (p : List Char) :
    getPasswordStrength p = (criteria p).count true ∧
    getPasswordStrength p ≤ 5 ∧
    getPasswordStrength ("AAAAAAAA".toList) = 2 ∧
    getPasswordStrength ("aA1!aaaa".toList) = 5 := by
  refine ⟨strength_eq_count p, ?_, by decide, by decide⟩
  rw [strength_eq_count p]
  calc (criteria p).count true ≤ (criteria p).length := List.count_le_length _ _
    _ = 5 := criteria_length p

/-- Claim C8: validating the password returns the "at least 8
characters" message when the length is below 8; otherwise the
"uppercase, lowercase, and number" message unless the value contains at
least one lowercase letter, one uppercase letter and one digit (a
conjunction, independent of character order); otherwise no error. -/
theorem c8_password_rule (p : List Char) :
    (p.length < 8 → passwordRule p = some msgPwLen) ∧
    (8 ≤ p.length →
      ¬((∃ c ∈ p, isLowerC c = true) ∧ (∃ c ∈ p, isUpperC c = true) ∧
        (∃ c ∈ p, isDigitC c = true)) →
      passwordRule p = some msgPwClass) ∧
    (8 ≤ p.length → (∃ c ∈ p, isLowerC c = true) → (∃ c ∈ p, isUpperC c = true) →
      (∃ c ∈ p, isDigitC c = true) → passwordRule p = none) := by
  refine ⟨fun h => ?_, fun h8 hno => ?_, fun h8 hl hu hd => ?_⟩
  · unfold passwordRule
    rw [if_pos (Or.inr h)]
  · have hne : ¬(p = [] ∨ p.length < 8) := by
      rintro (rfl | hlt)
      · simp at h8
      · omega
    have hcond : ¬(p.any isLowerC = true ∧ p.any isUpperC = true ∧ p.any isDigitC = true) := by
      simpa only [List.any_eq_true] using hno
    unfold passwordRule
    rw [if_neg hne, if_pos hcond]
  · have hne : ¬(p = [] ∨ p.length < 8) := by
      rintro (rfl | hlt)
      · simp at h8
      · omega
    have hcond : p.any isLowerC = true ∧ p.any isUpperC = true ∧ p.any isDigitC = true := by
      simp only [List.any_eq_true]
      exact ⟨hl, hu, hd⟩
    unfold passwordRule
    rw [if_neg hne, if_neg (not_not_intro hcond)]

/-- Witness for C8: each branch applied at a concrete password. -/
theorem c8_password_rule_witness :
    passwordRule ("Abc1".toList) = some msgPwLen ∧
    passwordRule ("abcdefgh".toList) = some msgPwClass ∧
    passwordRule ("Abcdef12".toList) = none :=
  ⟨(c8_password_rule _).1 (by decide),
   (c8_password_rule _).2.1 (by decide) (by decide),
   (c8_password_rule _).2.2 (by decide) (by decide) (by decide) (by decide)⟩

/-! ## Email regex semantics -/

theorem splitAtFirst_some_imp (a : Char) :
    ∀ s l r : List Char, splitAtFirst a s = some (l, r) → s = l ++ a :: r ∧ a ∉ l := by
  intro s
  induction s with
  | nil => intro l r h; simp [splitAtFirst] at h
  | cons c cs ih =>
    intro l r h
    rw [splitAtFirst] at h
    split at h
    case isTrue hc =>
      obtain ⟨rfl, rfl⟩ : [] = l ∧ cs = r := by simpa using h
      have : c = a := by simpa using hc
      simp [this]
    case isFalse hc =>
      split at h
      case h_1 => simp at h
      case h_2 l' r' heq =>
        obtain ⟨rfl, rfl⟩ : c :: l' = l ∧ r' = r := by simpa using h
        obtain ⟨h1, h2⟩ := ih l' r' heq
        refine ⟨by simp [h1], ?_⟩
        simp only [List.mem_cons, not_or]
        exact ⟨fun hac => hc (by simp [hac]), h2⟩

theorem splitAtFirst_append (a : Char) :
    ∀ l r : List Char, a ∉ l → splitAtFirst a (l ++ a :: r) = some (l, r) := by
  intro l
  induction l with
  | nil => intro r _; simp [splitAtFirst]
  | cons c l' ih =>
    intro r hmem
    simp only [List.mem_cons, not_or] at hmem
    rw [List.cons_append, splitAtFirst, if_neg (by simp; exact fun h => hmem.1 h.symm),
      ih r hmem.2]

theorem hasDotTail_iff : ∀ l : List Char, hasDotTail l = true ↔ ∃ m t, l = m ++ '.' :: t ∧ t ≠ [] := by
  intro l
  induction l with
  | nil =>
    simp only [hasDotTail]
    constructor
    · intro h; exact absurd h (by simp)
    · rintro ⟨m, t, he, -⟩
      exact absurd he.symm (by simp)
  | cons c cs ih =>
    cases cs with
    | nil =>
      simp only [hasDotTail]
      constructor
      · intro h; exact absurd h (by simp)
      · rintro ⟨m, t, he, ht⟩
        have hlen := congrArg List.length he
        have hpos := List.length_pos.mpr ht
        simp at hlen
        omega
    | cons c2 cs2 =>
      have heq : hasDotTail (c :: c2 :: cs2) = (c == '.' || hasDotTail (c2 :: cs2)) := rfl
      rw [heq]
      constructor
      · intro h
        rcases Bool.or_eq_true _ _ |>.mp h with h | h
        · exact ⟨[], c2 :: cs2, by simp [show c = '.' by simpa using h], List.cons_ne_nil _ _⟩
        · obtain ⟨m, t, he, ht⟩ := ih.mp h
          exact ⟨c :: m, t, by simp [he], ht⟩
      · rintro ⟨m, t, he, ht⟩
        cases m with
        | nil =>
          simp only [List.nil_append, List.cons.injEq] at he
          simp [he.1]
        | cons d m' =>
          simp only [List.cons_append, List.cons.injEq] at he
          have : hasDotTail (c2 :: cs2) = true := ih.mpr ⟨m', t, he.2, ht⟩
          simp [this]

theorem hasInteriorDot_iff (l : List Char) :
    hasInteriorDot l = true ↔ ∃ m t, l = m ++ '.' :: t ∧ m ≠ [] ∧ t ≠ [] := by
  cases l with
  | nil =>
    simp only [hasInteriorDot]
    constructor
    · intro h; exact absurd h (by simp)
    · rintro ⟨m, t, he, -, -⟩
      exact absurd he.symm (by simp)
  | cons c cs =>
    rw [hasInteriorDot, hasDotTail_iff cs]
    constructor
    · rintro ⟨m, t, rfl, ht⟩
      exact ⟨c :: m, t, rfl, by simp, ht⟩
    · rintro ⟨m, t, he, hm, ht⟩
      cases m with
      | nil => exact absurd rfl hm
      | cons d m' =>
        simp only [List.cons_append, List.cons.injEq] at he
        exact ⟨m', t, he.2, ht⟩

theorem emailRegexTest_iff (s : List Char) : emailRegexTest s = true ↔ EmailShape s := by
  unfold emailRegexTest
  constructor
  · intro h
    cases hsp : splitAtFirst '@' s with
    | none => rw [hsp] at h; simp at h
    | some lr =>
      obtain ⟨l, r⟩ := lr
      rw [hsp] at h
      simp only [Bool.and_eq_true] at h
      obtain ⟨⟨⟨hne, hl⟩, hr⟩, hdot⟩ := h
      obtain ⟨hs, -⟩ := splitAtFirst_some_imp '@' s l r hsp
      obtain ⟨m, t, rfl, hm, ht⟩ := (hasInteriorDot_iff r).mp hdot
      refine ⟨l, m, t, hs, ?_, hm, ht, ?_, ?_, ?_⟩
      · intro hle
        rw [hle] at hne
        simp at hne
      · exact fun c hc => List.all_eq_true.mp hl c hc
      · exact fun c hc => List.all_eq_true.mp hr c (by simp [hc])
      · exact fun c hc => List.all_eq_true.mp hr c (by simp [hc])
  · rintro ⟨l, m, t, rfl, hl, hm, ht, pl, pm, pt⟩
    have hnot : '@' ∉ l := by
      intro hmem
      have := pl _ hmem
      simp [isEmailChar] at this
    rw [splitAtFirst_append '@' l (m ++ '.' :: t) hnot]
    simp only [Bool.and_eq_true]
    refine ⟨⟨⟨?_, ?_⟩, ?_⟩, ?_⟩
    · cases l with
      | nil => exact absurd rfl hl
      | cons c cs => simp
    · exact List.all_eq_true.mpr pl
    · apply List.all_eq_true.mpr
      intro c hc
      rcases List.mem_append.mp hc with h | h
      · exact pm c h
      · rcases List.mem_cons.mp h with rfl | h
        · decide
        · exact pt c h
    · exact (hasInteriorDot_iff _).mpr ⟨m, t, rfl, hm, ht⟩

/-- Claim C9: validating the email field yields "Please enter a valid
email address" unless the value has the shape `local@domain.tld` (local
and domain excluding whitespace and `@`, a literal dot separating domain
from tld); and for the input `{username:"joedoe", email:"bad-email",
password:"Abcdef12", confirmPassword:"Abcdef12"}`, validating all fields
leaves only the email error. -/
theorem c9_email_validation :
    (∀ v : List Char, emailRule v = none ↔ EmailShape v) ∧
    validateAllFresh
        { username := "joedoe".toList, email := "bad-email".toList,
          password := "Abcdef12".toList, confirmPassword := "Abcdef12".toList }
      = { username := none, email := some msgEmail, password := none, confirmPassword := none } := by
  constructor
  · intro v
    unfold emailRule
    split_ifs with h
    · simp only [reduceCtorEq, false_iff]
      intro hs
      have htrue := (emailRegexTest_iff v).mpr hs
      rcases h with rfl | hf
      · obtain ⟨l, m, t, he, -, -, -, -, -, -⟩ := hs
        exact absurd he.symm (by simp)
      · rw [htrue] at hf
        simp at hf
    · push_neg at h
      simp only [true_iff]
      refine (emailRegexTest_iff v).mp ?_
      cases hev : emailRegexTest v
      · exact absurd hev h.2
      · rfl
  · decide

/-! ## Claims about the submit and input-change handlers -/

/-- Claim C1 (code behavior at the failing input): submitting the
untouched initial form — all four fields empty, hence invalid, as the
fresh snapshot shows — nevertheless proceeds past the client-side guard
into the simulated submission, because the guard reads the stale
pre-submit errors object (still empty) instead of the freshly computed
snapshot. -/
theorem c1_submit_uses_stale_errors :
    (handleSubmit initialState).2 = true ∧
    errorsEmpty (validateAllFresh initialState.formData) = false := by
  decide

/-- Claim C2 (code behavior at the failing input): after the event
sequence password := "Abcdef12", confirmPassword := "Abcdef12"
(validated as matching), password := "Abcdefgh9", the confirmPassword
field no longer equals the password, yet no "Passwords do not match"
error is recorded — changing the password does not re-evaluate
confirmPassword. -/
theorem c2_no_cross_field_revalidation :
    (handleInputChange .password ("Abcdefgh9".toList)
        (handleInputChange .confirmPassword ("Abcdef12".toList)
          (handleInputChange .password ("Abcdef12".toList) initialState))).errors.confirmPassword
      = none ∧
    (handleInputChange .password ("Abcdefgh9".toList)
        (handleInputChange .confirmPassword ("Abcdef12".toList)
          (handleInputChange .password ("Abcdef12".toList) initialState))).formData.confirmPassword
      ≠ (handleInputChange .password ("Abcdefgh9".toList)
        (handleInputChange .confirmPassword ("Abcdef12".toList)
          (handleInputChange .password ("Abcdef12".toList) initialState))).formData.password := by
  decide

/-- Claim C7 (code behavior at the failing input): after the event
sequence password := "Abcdef12", confirmPassword := "Abc" (error
recorded), password := "Abc", the confirmPassword value equals the
current password — its validation rule passes — yet the "Passwords do
not match" key is still present in the errors mapping, violating the
presence-only-when-invalid invariant. -/
theorem c7_stale_error_key_persists :
    (handleInputChange .password ("Abc".toList)
        (handleInputChange .confirmPassword ("Abc".toList)
          (handleInputChange .password ("Abcdef12".toList) initialState))).errors.confirmPassword
      = some msgConfirm ∧
    (handleInputChange .password ("Abc".toList)
        (handleInputChange .confirmPassword ("Abc".toList)
          (handleInputChange .password ("Abcdef12".toList) initialState))).formData.confirmPassword
      = (handleInputChange .password ("Abc".toList)
        (handleInputChange .confirmPassword ("Abc".toList)
          (handleInputChange .password ("Abcdef12".toList) initialState))).formData.password := by
  decide

/-- Claim C3: for a fully valid form (fresh validation snapshot empty),
the modelled submission controller visits `idle → submitting → succeeded`
and calls the collaborator exactly once when the collaborator succeeds,
and visits `idle → submitting → failed r` — retaining the failure reason
`r` for display — with exactly one collaborator call when it fails. -/
theorem c3_submission_lifecycle (fd : FormData)
    (h : errorsEmpty (validateAllFresh fd) = true) :
    specSubmit fd .success = ([.idle, .submitting, .succeeded], 1) ∧
    ∀ r, specSubmit fd (.failure r) = ([.idle, .submitting, .failed r], 1) := by
  unfold specSubmit
  rw [h]
  exact ⟨rfl, fun r => rfl⟩

/-- Witness for C3: a concrete fully valid form. -/
theorem c3_submission_lifecycle_witness :
    errorsEmpty (validateAllFresh
        { username := "joedoe".toList, email := "joe@x.com".toList,
          password := "Abcdef12".toList, confirmPassword := "Abcdef12".toList }) = true ∧
    specSubmit
        { username := "joedoe".toList, email := "joe@x.com".toList,
          password := "Abcdef12".toList, confirmPassword := "Abcdef12".toList } .success
      = ([.idle, .submitting, .succeeded], 1) :=
  ⟨by decide, (c3_submission_lifecycle _ (by decide)).1⟩

/-- Claim C10: in the sign-in form, when the trimmed email or the
trimmed password is empty, the submit handler returns immediately: the
state is unchanged, no network request is issued, and `isLoading` is
never set. -/
theorem c10_signin_empty_guard (s : SigninState)
    (h : trimList s.email = [] ∨ trimList s.password = []) :
    signinHandleSubmit s = (s, false, false) := by
  unfold signinHandleSubmit
  rw [if_pos h]

/-- Witness for C10: a whitespace-only email with a nonempty password. -/
theorem c10_signin_empty_guard_witness :
    (trimList ("   ".toList) = [] ∨ trimList ("secret".toList) = []) ∧
    signinHandleSubmit { email := "   ".toList, password := "secret".toList, isLoading := false }
      = ({ email := "   ".toList, password := "secret".toList, isLoading := false }, false, false) :=
  ⟨Or.inl (by decide),
   c10_signin_empty_guard _ (Or.inl (by decide))⟩
